import Mathlib

/-!
Verification of the agent perception-action-reward loop, the memory recency
buffer, the simplified PPO trainer bookkeeping, and the episode-recorder
lifecycle of the ai-drama-world-lab backend.

Numeric values are modelled as exact rationals (`ℚ`).  The two transcendental
operations of the source — the square root inside `np.linalg.norm` and
`np.arctan2` — are abstracted as explicit function parameters (`sqrtFn`,
`atan2`) wherever their *value* is stored in the state or observation; every
theorem below is proved for an arbitrary such function.  Where the source only
*compares* a Euclidean norm against a positive constant (`norm > 0.01` in
`act`, `norm > 10` in `calculate_reward`), the comparison is embedded as the
exactly equivalent comparison of squares, which avoids the square root
entirely.  The statistics of the return-normalization step genuinely compute a
square root, so that part is embedded over `ℝ`.
-/

/-- Three-component vector, matching the 3-element numpy arrays of the source. -/
structure Vec3 where
  x : ℚ
  y : ℚ
  z : ℚ
deriving DecidableEq, Repr

/-- Squared Euclidean norm of a `Vec3`; `np.linalg.norm v = sqrt (normSq v)`. -/
def Vec3.normSq (v : Vec3) : ℚ := v.x ^ 2 + v.y ^ 2 + v.z ^ 2

/-- Agent configuration (`AgentConfig` in `embodied_agent.py`). -/
structure AgentConfig where
  name : String
  goal : String
  personality : String := "neutral"
  learning_rate : ℚ := 0.0003
  max_speed : ℚ := 5
  observation_radius : ℚ := 10
deriving DecidableEq, Repr

/-- One object of a world snapshot: a mapping that may or may not carry a
3-component `position` field (objects without one are skipped by `perceive`). -/
structure WorldObject where
  position : Option Vec3
deriving DecidableEq, Repr

/-- World snapshot consumed by `perceive` and `calculate_reward`: a mapping
holding an ordered `objects` sequence. -/
structure WorldState where
  objects : List WorldObject
deriving DecidableEq, Repr

/-- Action mapping produced by `decide_action` and consumed by `act`:
`type`, `movement` (3 components) and an optional display `name`
(`act` reads it with `action.get("name", "idle")`). -/
structure ActionDict where
  type : String
  movement : Vec3
  name : Option String
deriving DecidableEq, Repr

/-- Mutable state of an `EmbodiedAgent` (the fields assigned in `__init__`).
The memory subsystem is modelled separately (`AgentMemory` below); none of the
functions embedded here read or write it. -/
structure EmbodiedAgent where
  config : AgentConfig
  position : Vec3
  velocity : Vec3
  rotation : ℚ
  health : ℚ
  energy : ℚ
  current_action : String
  emotional_state : String
  total_reward : ℚ
  episode_steps : ℕ
deriving DecidableEq, Repr

/-- Initial agent state from `EmbodiedAgent.__init__`. -/
def EmbodiedAgent.init (config : AgentConfig) : EmbodiedAgent where
  config := config
  position := ⟨0, 0.5, 0⟩
  velocity := ⟨0, 0, 0⟩
  rotation := 0
  health := 100
  energy := 100
  current_action := "idle"
  emotional_state := "neutral"
  total_reward := 0
  episode_steps := 0

/-- Nine self features of the observation: position, velocity, rotation,
health/100, energy/100 — the `observation.extend`/`append` calls of
`perceive`. -/
def EmbodiedAgent.self_features (a : EmbodiedAgent) : List ℚ :=
  [a.position.x, a.position.y, a.position.z,
   a.velocity.x, a.velocity.y, a.velocity.z,
   a.rotation, a.health / 100, a.energy / 100]

/-- Features contributed by one object of the snapshot in the `perceive` loop:
if the object has a position and the distance `sqrtFn (normSq rel)`
(the source's `np.linalg.norm(relative_pos)`) is below `observation_radius`,
the relative position and the distance, otherwise nothing. -/
def EmbodiedAgent.obj_features (sqrtFn : ℚ → ℚ) (a : EmbodiedAgent)
    (obj : WorldObject) : List ℚ :=
  match obj.position with
  | none => []
  | some p =>
    let rel : Vec3 := ⟨p.x - a.position.x, p.y - a.position.y, p.z - a.position.z⟩
    let distance := sqrtFn rel.normSq
    if distance < a.config.observation_radius then
      [rel.x, rel.y, rel.z, distance]
    else []

/-- Embedding of `EmbodiedAgent.perceive`: 9 self features, then the loop over
`objects[:5]` accumulating `obj_features`, then the `while`-loop padding with
`0.0` up to 20 entries, then the `[:20]` truncation. -/
def EmbodiedAgent.perceive (sqrtFn : ℚ → ℚ) (a : EmbodiedAgent)
    (w : WorldState) : List ℚ :=
  let observation := a.self_features
  let nearby_objects :=
    (w.objects.take 5).foldl (fun acc obj => acc ++ a.obj_features sqrtFn obj) []
  let padded := nearby_objects ++ List.replicate (20 - nearby_objects.length) 0
  observation ++ padded.take 20

/-- Spec-side decomposition of the nearby-object block of `perceive`
(this definition follows the spec's wording, for comparison with the
source-derived `perceive`): the concatenation of the per-object feature blocks
of the first 5 objects, where objects without a position and objects at or
beyond the observation radius contribute the empty block. -/
def EmbodiedAgent.nearby_block (sqrtFn : ℚ → ℚ) (a : EmbodiedAgent)
    (w : WorldState) : List ℚ :=
  ((w.objects.take 5).map (a.obj_features sqrtFn)).flatten

/-- Folding list-append over a list equals flattening the mapped list. -/
theorem foldl_append_eq_flatten {α β : Type} (g : β → List α) (l : List β) :
    ∀ init : List α,
      l.foldl (fun acc b => acc ++ g b) init = init ++ (l.map g).flatten := by
  induction l with
  | nil => intro init; simp
  | cons b t ih =>
    intro init
    simp only [List.foldl_cons, List.map_cons, List.flatten_cons]
    rw [ih (init ++ g b)]
    simp

/-- Each per-object block has at most 4 entries. -/
theorem obj_features_length_le (sqrtFn : ℚ → ℚ) (a : EmbodiedAgent)
    (obj : WorldObject) : (a.obj_features sqrtFn obj).length ≤ 4 := by
  unfold EmbodiedAgent.obj_features
  cases obj.position with
  | none => simp
  | some p => dsimp only; split <;> simp

/-- The nearby-object block of at most 5 objects has at most 20 entries. -/
theorem nearby_block_length_le (sqrtFn : ℚ → ℚ) (a : EmbodiedAgent)
    (w : WorldState) : (a.nearby_block sqrtFn w).length ≤ 20 := by
  unfold EmbodiedAgent.nearby_block
  have hlen : (w.objects.take 5).length ≤ 5 := by
    simp [List.length_take_le]
  have : ∀ (l : List WorldObject), ((l.map (a.obj_features sqrtFn)).flatten).length
      ≤ 4 * l.length := by
    intro l
    induction l with
    | nil => simp
    | cons b t ih =>
      simp only [List.map_cons, List.flatten_cons, List.length_append,
        List.length_cons]
      have := obj_features_length_le sqrtFn a b
      omega
  have h := this (w.objects.take 5)
  omega

/-- C1: perceive returns exactly 29 scalars for every agent state and every
world snapshot: 9 self features (position, velocity, rotation, normalized
health, normalized energy) followed by the 20-entry nearby-object block,
zero-padded.  The nearby block is the concatenation of the feature blocks of
only the first 5 objects of the snapshot, where an object lacking a position
field, or whose distance is not below `observation_radius`, contributes
nothing (so only in-radius objects contribute non-zero features — everything
past their blocks is the literal zero padding). -/
theorem perceive_returns_29_scalars (sqrtFn : ℚ → ℚ) (a : EmbodiedAgent)
    (w : WorldState) :
    (a.perceive sqrtFn w).length = 29 ∧
    a.perceive sqrtFn w =
      a.self_features ++ a.nearby_block sqrtFn w ++
        List.replicate (20 - (a.nearby_block sqrtFn w).length) 0 ∧
    a.self_features.length = 9 ∧
    (a.nearby_block sqrtFn w).length ≤ 20 := by
  have hfold :
      (w.objects.take 5).foldl (fun acc obj => acc ++ a.obj_features sqrtFn obj) []
        = a.nearby_block sqrtFn w := by
    rw [foldl_append_eq_flatten (a.obj_features sqrtFn) (w.objects.take 5) []]
    simp [EmbodiedAgent.nearby_block]
  have hle := nearby_block_length_le sqrtFn a w
  have hself : a.self_features.length = 9 := by
    simp [EmbodiedAgent.self_features]
  have hpad :
      ((a.nearby_block sqrtFn w ++
          List.replicate (20 - (a.nearby_block sqrtFn w).length) 0).take 20)
        = a.nearby_block sqrtFn w ++
            List.replicate (20 - (a.nearby_block sqrtFn w).length) 0 := by
    apply List.take_of_length_le
    simp only [List.length_append, List.length_replicate]
    omega
  have heq : a.perceive sqrtFn w =
      a.self_features ++ a.nearby_block sqrtFn w ++
        List.replicate (20 - (a.nearby_block sqrtFn w).length) 0 := by
    unfold EmbodiedAgent.perceive
    simp only [hfold]
    rw [hpad, List.append_assoc]
  refine ⟨?_, heq, hself, hle⟩
  rw [heq]
  simp only [List.length_append, List.length_replicate, hself]
  omega

/-- Random draws consumed by one `decide_action` call: the sampled action kind
(`np.random.choice(["move", "interact", "idle"], ...)`), the raw direction
sample (`np.random.randn(3)`) and the speed sample
(`np.random.uniform(0.5, max_speed)`).  Theorems quantify over every draw. -/
structure RandomDraw where
  choice : String
  direction : Vec3
  speed : ℚ
deriving DecidableEq, Repr

/-- Embedding of `EmbodiedAgent.decide_action`: first the passive energy drain
`energy = max(0, energy - 0.1)`, then the low-energy rest rule, then the
sampled exploration branch.  Returns the updated agent together with the
chosen action.  `sqrtFn` abstracts the square root inside
`np.linalg.norm(direction)`. -/
def EmbodiedAgent.decide_action (sqrtFn : ℚ → ℚ) (rng : RandomDraw)
    (a : EmbodiedAgent) : EmbodiedAgent × ActionDict :=
  let a := { a with energy := max 0 (a.energy - 0.1) }
  if a.energy < 20 then
    (a, ⟨"rest", ⟨0, 0, 0⟩, some "resting"⟩)
  else if rng.choice = "move" then
    let direction : Vec3 := ⟨rng.direction.x, 0, rng.direction.z⟩
    let n := sqrtFn direction.normSq + 1e-8
    let direction : Vec3 := ⟨direction.x / n, direction.y / n, direction.z / n⟩
    let movement : Vec3 :=
      ⟨direction.x * rng.speed, direction.y * rng.speed, direction.z * rng.speed⟩
    (a, ⟨"move", movement, some "moving"⟩)
  else if rng.choice = "interact" then
    (a, ⟨"interact", ⟨0, 0, 0⟩, some "interacting"⟩)
  else
    (a, ⟨"idle", ⟨0, 0, 0⟩, some "idle"⟩)

/-- Embedding of `EmbodiedAgent.act`.  The source's rotation-jitter guard
`np.linalg.norm(movement) > 0.01` is embedded as the exactly equivalent
`normSq movement > 0.0001` (both sides of the original comparison are
non-negative); `atan2` abstracts `np.arctan2`, whose exact value is
transcendental. -/
def EmbodiedAgent.act (atan2 : ℚ → ℚ → ℚ) (action : ActionDict) (dt : ℚ)
    (a : EmbodiedAgent) : EmbodiedAgent :=
  let a := { a with current_action := action.name.getD "idle" }
  let a :=
    if action.type = "move" then
      let movement := action.movement
      let a := { a with velocity := movement,
                        position := ⟨a.position.x + movement.x * dt,
                                     a.position.y + movement.y * dt,
                                     a.position.z + movement.z * dt⟩ }
      let a := if movement.normSq > 0.0001 then
          { a with rotation := atan2 movement.z movement.x }
        else a
      { a with energy := max 0 (a.energy - 0.2) }
    else if action.type = "rest" then
      { a with velocity := ⟨0, 0, 0⟩, energy := min 100 (a.energy + 1) }
    else if action.type = "interact" then
      { a with velocity := ⟨0, 0, 0⟩, energy := max 0 (a.energy - 0.5) }
    else a
  { a with episode_steps := a.episode_steps + 1 }

/-- Embedding of `EmbodiedAgent.calculate_reward` (the world-state argument is
accepted and never read, exactly as in the source).  The boundary check
`np.linalg.norm(position[[0, 2]]) > 10` is embedded as the exactly equivalent
`x^2 + z^2 > 100`.  Returns the updated agent (accumulated `total_reward`)
and the reward. -/
def EmbodiedAgent.calculate_reward (a : EmbodiedAgent)
    (_world_state : WorldState) : EmbodiedAgent × ℚ :=
  let reward : ℚ := 0
  let reward := reward + 0.1
  let reward := if a.energy < 20 then reward - 0.5 else reward
  let reward := if a.current_action = "idle" then reward - 0.05 else reward
  let reward := if a.current_action = "interacting" then reward + 0.3 else reward
  let reward := if a.position.x ^ 2 + a.position.z ^ 2 > 100 then reward - 1
    else reward
  ({ a with total_reward := a.total_reward + reward }, reward)

/-- One step of the agent loop, for stating trace invariants: either a
`decide_action` call (keeping its state effect) or an `act` call with an
arbitrary action and time step. -/
inductive AgentOp where
  | decide (sqrtFn : ℚ → ℚ) (rng : RandomDraw)
  | act (atan2 : ℚ → ℚ → ℚ) (action : ActionDict) (dt : ℚ)

/-- Apply one `AgentOp` to an agent. -/
def EmbodiedAgent.run_op (a : EmbodiedAgent) : AgentOp → EmbodiedAgent
  | .decide sqrtFn rng => (a.decide_action sqrtFn rng).1
  | .act atan2 action dt => a.act atan2 action dt

/-- Apply a whole sequence of `decide_action` and `act` calls. -/
def EmbodiedAgent.run_ops (a : EmbodiedAgent) (ops : List AgentOp) :
    EmbodiedAgent :=
  ops.foldl EmbodiedAgent.run_op a

/-- Energy and health both lie in `[0, 100]`. -/
def EmbodiedAgent.vitals_in_bounds (a : EmbodiedAgent) : Prop :=
  0 ≤ a.energy ∧ a.energy ≤ 100 ∧ 0 ≤ a.health ∧ a.health ≤ 100

/-- The state component of `decide_action` is exactly the agent with the
passive energy drain applied; every branch returns the same state. -/
theorem decide_action_state (sqrtFn : ℚ → ℚ) (rng : RandomDraw)
    (a : EmbodiedAgent) :
    (a.decide_action sqrtFn rng).1 = { a with energy := max 0 (a.energy - 0.1) } := by
  unfold EmbodiedAgent.decide_action
  dsimp only
  split_ifs <;> rfl

/-- Energy after an `act` call, by action type. -/
theorem act_energy (atan2 : ℚ → ℚ → ℚ) (action : ActionDict) (dt : ℚ)
    (a : EmbodiedAgent) :
    (a.act atan2 action dt).energy =
      if action.type = "move" then max 0 (a.energy - 0.2)
      else if action.type = "rest" then min 100 (a.energy + 1)
      else if action.type = "interact" then max 0 (a.energy - 0.5)
      else a.energy := by
  unfold EmbodiedAgent.act
  dsimp only
  split_ifs <;> rfl

/-- An `act` call never writes `health`. -/
theorem act_health (atan2 : ℚ → ℚ → ℚ) (action : ActionDict) (dt : ℚ)
    (a : EmbodiedAgent) : (a.act atan2 action dt).health = a.health := by
  unfold EmbodiedAgent.act
  dsimp only
  split_ifs <;> rfl

/-- Every single `decide_action` or `act` call preserves the vitals bounds. -/
theorem run_op_preserves_vitals (a : EmbodiedAgent) (op : AgentOp)
    (h : a.vitals_in_bounds) : (a.run_op op).vitals_in_bounds := by
  obtain ⟨h1, h2, h3, h4⟩ := h
  cases op with
  | decide sqrtFn rng =>
    show ((a.decide_action sqrtFn rng).1).vitals_in_bounds
    rw [decide_action_state]
    exact ⟨le_max_left _ _, max_le (by norm_num) (by linarith), h3, h4⟩
  | act atan2 action dt =>
    show (a.act atan2 action dt).vitals_in_bounds
    refine ⟨?_, ?_, ?_, ?_⟩
    · rw [act_energy]; split_ifs
      · exact le_max_left _ _
      · exact le_min (by norm_num) (by linarith)
      · exact le_max_left _ _
      · exact h1
    · rw [act_energy]; split_ifs
      · exact max_le (by norm_num) (by linarith)
      · exact min_le_left _ _
      · exact max_le (by norm_num) (by linarith)
      · exact h2
    · rw [act_health]; exact h3
    · rw [act_health]; exact h4

/-- Vitals bounds are preserved along any whole trace. -/
theorem run_ops_preserves_vitals (ops : List AgentOp) :
    ∀ a : EmbodiedAgent, a.vitals_in_bounds → (a.run_ops ops).vitals_in_bounds := by
  induction ops with
  | nil => intro a h; exact h
  | cons op t ih =>
    intro a h
    exact ih _ (run_op_preserves_vitals a op h)

/-- C2: after any sequence of `decide_action` and `act` calls (with any
actions, any time steps, any random draws, and any square-root/arctangent
realizations), starting from a freshly constructed agent, the agent's energy
and health remain within `[0, 100]`.  (`act` and `decide_action` never write
`health` at all, and every `energy` write is clamped.) -/
theorem agent_energy_health_within_bounds (config : AgentConfig)
    (ops : List AgentOp) :
    0 ≤ ((EmbodiedAgent.init config).run_ops ops).energy ∧
    ((EmbodiedAgent.init config).run_ops ops).energy ≤ 100 ∧
    0 ≤ ((EmbodiedAgent.init config).run_ops ops).health ∧
    ((EmbodiedAgent.init config).run_ops ops).health ≤ 100 :=
  run_ops_preserves_vitals ops (EmbodiedAgent.init config)
    ⟨by norm_num [EmbodiedAgent.init], by norm_num [EmbodiedAgent.init],
     by norm_num [EmbodiedAgent.init], by norm_num [EmbodiedAgent.init]⟩

/-- Sample configuration used by concrete witnesses. -/
def sample_config : AgentConfig := { name := "alice", goal := "explore" }

/-- Concrete agent with energy `0.05`, below the per-call drain of `0.1`. -/
def tiny_energy_agent : EmbodiedAgent :=
  { EmbodiedAgent.init sample_config with energy := 0.05 }

/-- Concrete agent with energy `15`, below the rest threshold of `20`. -/
def rest_test_agent : EmbodiedAgent :=
  { EmbodiedAgent.init sample_config with energy := 15 }

/-- C5 counterexample: `decide_action` does not always decrement energy by
exactly `0.1` — the write is `energy = max(0, energy - 0.1)`, so an agent at
energy `0.05` ends at `0`, a decrement of only `0.05` (the claimed decrement
would give `-0.05`). -/
theorem decide_action_decrement_counterexample :
    ¬ ((tiny_energy_agent.decide_action (fun q => q)
          ⟨"idle", ⟨0, 0, 0⟩, 0⟩).1.energy
        = tiny_energy_agent.energy - 0.1) := by
  rw [decide_action_state]
  show ¬ (max 0 (tiny_energy_agent.energy - 0.1) = tiny_energy_agent.energy - 0.1)
  rw [show tiny_energy_agent.energy = 0.05 from rfl]
  rw [max_eq_left (by norm_num : (0.05 : ℚ) - 0.1 ≤ 0)]
  norm_num

/-- C5 (amended): for every observation-independent random draw and every
square-root realization, `decide_action` first applies the clamped passive
drain `energy = max(0, energy - 0.1)` (this is its whole state effect), and
whenever the agent's energy is below 20 it returns the rest action
`{type: "rest", movement: [0,0,0], name: "resting"}`, taking precedence over
the exploration policy. -/
theorem decide_action_rest_precedence (sqrtFn : ℚ → ℚ) (rng : RandomDraw)
    (a : EmbodiedAgent) :
    (a.decide_action sqrtFn rng).1
        = { a with energy := max 0 (a.energy - 0.1) } ∧
    (a.energy < 20 →
      (a.decide_action sqrtFn rng).2 = ⟨"rest", ⟨0, 0, 0⟩, some "resting"⟩) := by
  refine ⟨decide_action_state sqrtFn rng a, fun h => ?_⟩
  have hc : max 0 (a.energy - 0.1) < 20 := max_lt (by norm_num) (by linarith)
  simp [EmbodiedAgent.decide_action, hc]

/-- C5 witness: the agent at energy 15 rests on a draw that would otherwise
move. -/
theorem decide_action_rest_witness :
    rest_test_agent.energy < 20 ∧
    (rest_test_agent.decide_action (fun q => q) ⟨"move", ⟨1, 0, 0⟩, 3⟩).2
      = ⟨"rest", ⟨0, 0, 0⟩, some "resting"⟩ :=
  ⟨by norm_num [rest_test_agent, EmbodiedAgent.init],
   (decide_action_rest_precedence (fun q => q) ⟨"move", ⟨1, 0, 0⟩, 3⟩
      rest_test_agent).2 (by norm_num [rest_test_agent, EmbodiedAgent.init])⟩

/-- C6: `calculate_reward` returns exactly the sum of the five additive,
independent terms — `+0.1` baseline, `-0.5` if energy is below 20, `-0.05` if
the current action is "idle", `+0.3` if it is "interacting", `-1.0` if the
horizontal distance from the origin exceeds 10 (embedded as
`x^2 + z^2 > 100`) — and the agent's `total_reward` grows by exactly that
amount (nothing else changes). -/
theorem calculate_reward_additive_terms (a : EmbodiedAgent) (w : WorldState) :
    (a.calculate_reward w).2 =
      0.1 + (if a.energy < 20 then -0.5 else 0)
          + (if a.current_action = "idle" then -0.05 else 0)
          + (if a.current_action = "interacting" then 0.3 else 0)
          + (if a.position.x ^ 2 + a.position.z ^ 2 > 100 then -1 else 0) ∧
    (a.calculate_reward w).1 =
      { a with total_reward := a.total_reward + (a.calculate_reward w).2 } := by
  unfold EmbodiedAgent.calculate_reward
  dsimp only
  constructor
  · split_ifs <;> norm_num
  · rfl

/-- C10: an `act` call whose action type is none of "move", "rest" or
"interact" leaves position, velocity, rotation, energy and health untouched;
it still sets `current_action` to the action's name (defaulting to "idle"
when absent) and increments the step counter by exactly 1. -/
theorem act_unknown_type_only_labels (atan2 : ℚ → ℚ → ℚ) (action : ActionDict)
    (dt : ℚ) (a : EmbodiedAgent)
    (hm : action.type ≠ "move") (hr : action.type ≠ "rest")
    (hi : action.type ≠ "interact") :
    a.act atan2 action dt =
      { a with current_action := action.name.getD "idle",
               episode_steps := a.episode_steps + 1 } := by
  unfold EmbodiedAgent.act
  simp [hm, hr, hi]

/-- C10 witness: a nameless "idle" action changes only the action label and
the step counter of a fresh agent. -/
theorem act_unknown_type_witness :
    (("idle" : String) ≠ "move") ∧ (("idle" : String) ≠ "rest") ∧
    (("idle" : String) ≠ "interact") ∧
    (EmbodiedAgent.init sample_config).act (fun _ _ => 0)
        ⟨"idle", ⟨0, 0, 0⟩, none⟩ 0.016 =
      { EmbodiedAgent.init sample_config with
          current_action := "idle", episode_steps := 1 } :=
  ⟨by decide, by decide, by decide,
   act_unknown_type_only_labels (fun _ _ => 0) ⟨"idle", ⟨0, 0, 0⟩, none⟩ 0.016
     (EmbodiedAgent.init sample_config) (by decide) (by decide) (by decide)⟩

/-- Bounded push of a Python `deque(maxlen=...)`: append at the right, then
evict oldest-first when over capacity. -/
def deque_push {α : Type} (maxlen : ℕ) (l : List α) (x : α) : List α :=
  let l := l ++ [x]
  if maxlen < l.length then l.drop (l.length - maxlen) else l

/-- Memory store of an agent (`AgentMemory` in `embodied_agent.py`), generic
in the experience payload: `short_term` is a deque of maxlen 100, `long_term`
a deque of maxlen `capacity` (default 1000), `episodic` an unbounded list;
lists are chronological, newest entry last. -/
structure AgentMemory (α : Type) where
  capacity : ℕ := 1000
  short_term : List α := []
  long_term : List α := []
  episodic : List α := []

/-- Embedding of `AgentMemory.add_experience`: push into both ring buffers. -/
def AgentMemory.add_experience {α : Type} (m : AgentMemory α) (e : α) :
    AgentMemory α :=
  { m with short_term := deque_push 100 m.short_term e,
           long_term := deque_push m.capacity m.long_term e }

/-- Embedding of `AgentMemory.get_recent`: `list(self.short_term)[-n:]`.
A Python slice `[-n:]` is `[0:]` — the whole list — when `n` is `0`
(since `-0 == 0`), and otherwise the suffix of length `min n len`. -/
def AgentMemory.get_recent {α : Type} (m : AgentMemory α) (n : ℕ) : List α :=
  if n = 0 then m.short_term
  else m.short_term.drop (m.short_term.length - n)

/-- C9 counterexample: `get_recent 0` on a one-entry history returns the whole
history (the Python slice `[-0:]` is the full list), so it does not return at
most `0` entries. -/
theorem get_recent_zero_counterexample :
    ¬ ((AgentMemory.get_recent ⟨1000, [0], [0], []⟩ 0).length ≤ 0) := by
  decide

/-- C9 (amended): for every `n ≥ 1` and every memory history, `get_recent n`
returns exactly the `min n len` most-recently-added short-term entries
(the reverse of the first `n` entries of the reversed history) in
chronological order — fewer than `n` when the history is shorter.  At `n = 0`
the source instead returns the whole history. -/
theorem get_recent_window {α : Type} (m : AgentMemory α) (n : ℕ)
    (h : 1 ≤ n) :
    m.get_recent n = (m.short_term.reverse.take n).reverse ∧
    (m.get_recent n).length = min n m.short_term.length := by
  have hn : n ≠ 0 := by omega
  have hdef : m.get_recent n = m.short_term.drop (m.short_term.length - n) := by
    simp [AgentMemory.get_recent, hn]
  constructor
  · rw [hdef, ← List.rtake, List.rtake_eq_reverse_take_reverse]
  · rw [hdef, List.length_drop]
    omega

/-- C9 witness: the two most recent of three entries, in order. -/
theorem get_recent_window_witness :
    (1 ≤ 2) ∧
    AgentMemory.get_recent ⟨1000, [10, 20, 30], [10, 20, 30], []⟩ 2 = [20, 30] ∧
    (AgentMemory.get_recent ⟨1000, [10, 20, 30], [10, 20, 30], []⟩ 2).length
      = min 2 3 := by
  refine ⟨by decide, ?_, ?_⟩
  · have h := get_recent_window (⟨1000, [10, 20, 30], [10, 20, 30], []⟩ :
      AgentMemory ℕ) 2 (by decide)
    rw [h.1]
    decide
  · exact (get_recent_window (⟨1000, [10, 20, 30], [10, 20, 30], []⟩ :
      AgentMemory ℕ) 2 (by decide)).2

/-- Pre-normalization loop of `PPOTrainer.compute_returns`: iterate over
`zip(reversed(rewards), reversed(dones))` carrying the running return `R`
(reset to 0 on a `done` entry before accumulating `R = reward + gamma * R`)
and insert each value at the front of the output, so the output is in forward
chronological order. -/
def compute_returns_raw (γ : ℚ) (rewards : List ℚ) (dones : List Bool) :
    List ℚ :=
  ((rewards.reverse.zip dones.reverse).foldl
    (fun acc p =>
      let R := p.1 + γ * (if p.2 then 0 else acc.2)
      (R :: acc.1, R)) ([], 0)).1

/-- Structurally recursive description of the same walk: each step's return is
its reward plus `γ` times the next step's return, cut to 0 across a `done`
boundary. -/
def returns_structural (γ : ℚ) : List ℚ → List Bool → List ℚ
  | r :: rs, d :: ds =>
    let rest := returns_structural γ rs ds
    (r + γ * (if d then 0 else rest.headD 0)) :: rest
  | _, _ => []

/-- Zipping two reversed lists of equal length reverses the zip. -/
theorem zip_reverse_of_length_eq {α β : Type} :
    ∀ (l1 : List α) (l2 : List β), l1.length = l2.length →
      l1.reverse.zip l2.reverse = (l1.zip l2).reverse := by
  intro l1
  induction l1 with
  | nil => intro l2 h; simp at h; simp [h.symm, List.eq_nil_of_length_eq_zero h.symm]
  | cons a t ih =>
    intro l2 h
    cases l2 with
    | nil => simp at h
    | cons b t2 =>
      simp only [List.length_cons, Nat.succ.injEq] at h
      simp only [List.reverse_cons, List.zip_cons_cons]
      rw [List.zip_append (by simp [h]), ih t2 h]
      simp

/-- The folded reverse walk computes `returns_structural` together with its
head (the running return after the walk). -/
theorem foldr_eq_returns_structural (γ : ℚ) :
    ∀ (rs : List ℚ) (ds : List Bool), rs.length = ds.length →
      (rs.zip ds).foldr
          (fun p acc =>
            let R := p.1 + γ * (if p.2 then 0 else acc.2)
            (R :: acc.1, R)) ([], 0)
        = (returns_structural γ rs ds, (returns_structural γ rs ds).headD 0) := by
  intro rs
  induction rs with
  | nil => intro ds h; simp [returns_structural]
  | cons r t ih =>
    intro ds h
    cases ds with
    | nil => simp at h
    | cons d t2 =>
      simp only [List.length_cons, Nat.succ.injEq] at h
      simp only [List.zip_cons_cons, List.foldr_cons, ih t2 h]
      simp [returns_structural]

/-- The source loop equals its structural description when the two buffer
sequences have equal length. -/
theorem compute_returns_raw_eq_structural (γ : ℚ) (rewards : List ℚ)
    (dones : List Bool) (h : rewards.length = dones.length) :
    compute_returns_raw γ rewards dones = returns_structural γ rewards dones := by
  unfold compute_returns_raw
  rw [zip_reverse_of_length_eq rewards dones h, List.foldl_reverse,
    foldr_eq_returns_structural γ rewards dones h]

/-- Length of the structural walk. -/
theorem returns_structural_length (γ : ℚ) :
    ∀ (rs : List ℚ) (ds : List Bool), rs.length = ds.length →
      (returns_structural γ rs ds).length = rs.length := by
  intro rs
  induction rs with
  | nil => intro ds h; simp [returns_structural]
  | cons r t ih =>
    intro ds h
    cases ds with
    | nil => simp at h
    | cons d t2 =>
      simp only [List.length_cons, Nat.succ.injEq] at h
      simp [returns_structural, ih t2 h]

/-- `headD 0` is `getD 0 0`. -/
theorem headD_eq_getD_zero (l : List ℚ) : l.headD 0 = l.getD 0 0 := by
  cases l <;> rfl

/-- Per-index recurrence of the structural walk. -/
theorem returns_structural_getD (γ : ℚ) :
    ∀ (rs : List ℚ) (ds : List Bool), rs.length = ds.length →
      ∀ t, t < rs.length →
        (returns_structural γ rs ds).getD t 0
          = rs.getD t 0 +
            γ * (if ds.getD t false then 0
                 else (returns_structural γ rs ds).getD (t + 1) 0) := by
  intro rs
  induction rs with
  | nil => intro ds h t ht; simp at ht
  | cons r rst ih =>
    intro ds h t ht
    cases ds with
    | nil => simp at h
    | cons d dst =>
      simp only [List.length_cons, Nat.succ.injEq] at h
      cases t with
      | zero =>
        simp only [returns_structural, List.getD_cons_zero, List.getD_cons_succ]
        rw [headD_eq_getD_zero]
      | succ t =>
        simp only [returns_structural, List.getD_cons_succ]
        exact ih dst h t (by simpa using ht)

/-- Discounted-sum closed form of the structural walk when no entry is done. -/
theorem returns_structural_no_done (γ : ℚ) :
    ∀ (rs : List ℚ) (t : ℕ), t < rs.length →
      (returns_structural γ rs (List.replicate rs.length false)).getD t 0
        = ∑ k ∈ Finset.range (rs.length - t), γ ^ k * rs.getD (t + k) 0 := by
  intro rs
  induction rs with
  | nil => intro t ht; simp at ht
  | cons r rst ih =>
    intro t ht
    cases t with
    | zero =>
      simp only [List.length_cons, List.replicate_succ, returns_structural,
        List.getD_cons_zero, if_neg Bool.false_ne_true, Nat.sub_zero]
      rw [Finset.sum_range_succ' (fun k => γ ^ k * (r :: rst).getD (0 + k) 0)]
      simp only [List.getD_cons_succ, List.getD_cons_zero, pow_zero, one_mul,
        Nat.zero_add]
      cases rst with
      | nil => simp [returns_structural]
      | cons r2 rst2 =>
        rw [headD_eq_getD_zero, ih 0 (by simp)]
        rw [Finset.mul_sum]
        simp only [Nat.zero_add, Nat.sub_zero]
        rw [add_comm]
        congr 1
        apply Finset.sum_congr rfl
        intro k _
        rw [pow_succ' γ k]
        ring
    | succ t =>
      simp only [List.length_cons, List.replicate_succ, returns_structural,
        List.getD_cons_succ]
      rw [ih t (by simpa using ht)]
      have hrange : rst.length + 1 - (t + 1) = rst.length - t := by omega
      rw [hrange]
      apply Finset.sum_congr rfl
      intro k _
      have harg : t + 1 + k = (t + k) + 1 := by omega
      rw [harg, List.getD_cons_succ]

/-- C3: `compute_returns`'s reverse walk produces, in forward chronological
order, one return per buffer entry satisfying
`ret t = reward t + γ * (0 if done t else ret (t+1))` — i.e. the running
return resets to 0 across `done` entries and otherwise accumulates
`R = reward + γ·R`; and when no entry is done, the pre-normalization return at
index `t` is the discounted sum of `γ^k` times the reward at `t + k` to the
end of the buffer. -/
theorem compute_returns_reverse_walk (γ : ℚ) (rewards : List ℚ)
    (dones : List Bool) (hlen : rewards.length = dones.length) :
    (compute_returns_raw γ rewards dones).length = rewards.length ∧
    (∀ t, t < rewards.length →
      (compute_returns_raw γ rewards dones).getD t 0
        = rewards.getD t 0 +
          γ * (if dones.getD t false then 0
               else (compute_returns_raw γ rewards dones).getD (t + 1) 0)) ∧
    (dones = List.replicate rewards.length false →
      ∀ t, t < rewards.length →
        (compute_returns_raw γ rewards dones).getD t 0
          = ∑ k ∈ Finset.range (rewards.length - t),
              γ ^ k * rewards.getD (t + k) 0) := by
  rw [compute_returns_raw_eq_structural γ rewards dones hlen]
  refine ⟨returns_structural_length γ rewards dones hlen,
    returns_structural_getD γ rewards dones hlen, ?_⟩
  intro hnd t ht
  rw [hnd]
  exact returns_structural_no_done γ rewards t ht

/-- C3 witness: a two-step buffer with no done entries and `γ = 1/2`. -/
theorem compute_returns_walk_witness :
    ([1, 2] : List ℚ).length = ([false, false] : List Bool).length ∧
    ([false, false] : List Bool)
      = List.replicate ([1, 2] : List ℚ).length false ∧
    (0 : ℕ) < ([1, 2] : List ℚ).length ∧
    (compute_returns_raw (1/2) [1, 2] [false, false]).getD 0 0
      = ∑ k ∈ Finset.range (([1, 2] : List ℚ).length - 0),
          ((1 : ℚ)/2) ^ k * ([1, 2] : List ℚ).getD (0 + k) 0 :=
  ⟨rfl, rfl, by norm_num,
   (compute_returns_reverse_walk (1/2) [1, 2] [false, false] rfl).2.2 rfl 0
     (by norm_num)⟩

/-- Mean of a list of reals (`arr.mean()` of numpy: sum over length). -/
noncomputable def list_mean (l : List ℝ) : ℝ := l.sum / l.length

/-- Population variance (`ddof = 0`): mean squared deviation from the mean;
the square of numpy's `arr.std()`. -/
noncomputable def list_variance (l : List ℝ) : ℝ :=
  (l.map (fun x => (x - list_mean l) ^ 2)).sum / l.length

/-- Population standard deviation, numpy's `arr.std()`. -/
noncomputable def list_std (l : List ℝ) : ℝ := Real.sqrt (list_variance l)

/-- Normalization line of `compute_returns`:
`returns = (returns - returns.mean()) / (returns.std() + 1e-8)`. -/
noncomputable def normalize_returns (l : List ℝ) : List ℝ :=
  l.map (fun x => (x - list_mean l) / (list_std l + 1e-8))

/-- Full embedding of `PPOTrainer.compute_returns`: the reverse walk followed
by whole-buffer normalization, over exact reals. -/
noncomputable def compute_returns (γ : ℚ) (rewards : List ℚ)
    (dones : List Bool) : List ℝ :=
  normalize_returns ((compute_returns_raw γ rewards dones).map (fun (q : ℚ) => (q : ℝ)))

/-- Rational-valued population variance of the pre-normalization returns, for
stating a decidable non-zero-variance hypothesis. -/
def list_varianceQ (l : List ℚ) : ℚ :=
  (l.map (fun x => (x - l.sum / l.length) ^ 2)).sum / l.length

/-- Sum of pointwise quotients is the quotient of the sum. -/
theorem sum_map_div_const (l : List ℝ) (f : ℝ → ℝ) (d : ℝ) :
    (l.map (fun x => f x / d)).sum = (l.map f).sum / d := by
  induction l with
  | nil => simp
  | cons a t ih => simp [ih, add_div]

/-- Sum of deviations from a constant. -/
theorem sum_map_sub_const (l : List ℝ) (c : ℝ) :
    (l.map (fun x => x - c)).sum = l.sum - l.length * c := by
  induction l with
  | nil => simp
  | cons a t ih =>
    simp only [List.map_cons, List.sum_cons, ih, List.length_cons]
    push_cast
    ring

/-- Deviations from the mean sum to zero. -/
theorem sum_sub_mean (l : List ℝ) (hl : l ≠ []) :
    (l.map (fun x => x - list_mean l)).sum = 0 := by
  have hn : (l.length : ℝ) ≠ 0 := by
    simp [List.length_eq_zero, hl]
  rw [sum_map_sub_const, list_mean, mul_div_cancel₀ _ hn, sub_self]

/-- The variance is non-negative. -/
theorem list_variance_nonneg (l : List ℝ) : 0 ≤ list_variance l := by
  unfold list_variance
  apply div_nonneg _ (Nat.cast_nonneg _)
  apply List.sum_nonneg
  intro x hx
  simp only [List.mem_map] at hx
  obtain ⟨y, _, rfl⟩ := hx
  positivity

/-- The normalized sequence has mean exactly zero. -/
theorem list_mean_normalize (l : List ℝ) (hl : l ≠ []) :
    list_mean (normalize_returns l) = 0 := by
  unfold list_mean normalize_returns
  rw [sum_map_div_const, sum_sub_mean l hl]
  simp

/-- Variance of the normalized sequence: the original variance divided by the
square of the stabilized denominator. -/
theorem list_variance_normalize (l : List ℝ) (hl : l ≠ []) :
    list_variance (normalize_returns l)
      = list_variance l / (list_std l + 1e-8) ^ 2 := by
  have hmean := list_mean_normalize l hl
  unfold list_variance
  rw [hmean]
  have hlen : (normalize_returns l).length = l.length := by
    simp [normalize_returns]
  rw [hlen]
  unfold normalize_returns
  rw [List.map_map]
  have hfun : ((fun x => (x - 0) ^ 2) ∘ fun x => (x - list_mean l) / (list_std l + 1e-8))
      = fun x => ((x - list_mean l) ^ 2) / (list_std l + 1e-8) ^ 2 := by
    funext x
    simp [div_pow]
  rw [hfun]
  rw [sum_map_div_const l (fun x => (x - list_mean l) ^ 2) ((list_std l + 1e-8) ^ 2)]
  rw [div_div, div_div, mul_comm]

/-- Standard deviation of the normalized sequence: `s / (s + 1e-8)`. -/
theorem list_std_normalize (l : List ℝ) (hl : l ≠ []) :
    list_std (normalize_returns l) = list_std l / (list_std l + 1e-8) := by
  have hs : (0 : ℝ) ≤ list_std l := Real.sqrt_nonneg _
  have hd : (0 : ℝ) ≤ list_std l + 1e-8 := by positivity
  unfold list_std
  rw [list_variance_normalize l hl,
    Real.sqrt_div (list_variance_nonneg l) _,
    Real.sqrt_sq hd]
  rfl

/-- C7: the sequence returned by `compute_returns` (reverse walk followed by
whole-buffer normalization with epsilon-stabilized denominator `s + 1e-8`)
has mean exactly 0, and its standard deviation is exactly `s / (s + 1e-8)`
where `s` is the pre-normalization standard deviation — i.e. it is below 1 by
exactly `1e-8 / (s + 1e-8)`, the contribution of the stabilizing epsilon of
the denominator. -/
theorem compute_returns_normalized_stats (γ : ℚ) (rewards : List ℚ)
    (dones : List Bool)
    (h2 : 2 ≤ (compute_returns_raw γ rewards dones).length)
    (_hvar : list_varianceQ (compute_returns_raw γ rewards dones) ≠ 0) :
    list_mean (compute_returns γ rewards dones) = 0 ∧
    list_std (compute_returns γ rewards dones)
      = list_std ((compute_returns_raw γ rewards dones).map (fun (q : ℚ) => (q : ℝ)))
        / (list_std ((compute_returns_raw γ rewards dones).map (fun (q : ℚ) => (q : ℝ)))
            + 1e-8) ∧
    |list_std (compute_returns γ rewards dones) - 1|
        * (list_std ((compute_returns_raw γ rewards dones).map (fun (q : ℚ) => (q : ℝ)))
            + 1e-8)
      = 1e-8 ∧
    list_std (compute_returns γ rewards dones) < 1 := by
  set L : List ℝ := (compute_returns_raw γ rewards dones).map (fun (q : ℚ) => (q : ℝ))
    with hL
  have hlen : 2 ≤ L.length := by
    have hmap : L.length = (compute_returns_raw γ rewards dones).length := by
      rw [hL, List.length_map]
    rw [hmap]
    exact h2
  have hne : L ≠ [] := by
    intro hnil
    rw [hnil] at hlen
    simp at hlen
  have hs : (0 : ℝ) ≤ list_std L := Real.sqrt_nonneg _
  have hdpos : (0 : ℝ) < list_std L + 1e-8 := by positivity
  have hmean : list_mean (compute_returns γ rewards dones) = 0 :=
    list_mean_normalize L hne
  have hstd : list_std (compute_returns γ rewards dones)
      = list_std L / (list_std L + 1e-8) :=
    list_std_normalize L hne
  refine ⟨hmean, hstd, ?_, ?_⟩
  · rw [hstd]
    have hexpr : list_std L / (list_std L + 1e-8) - 1
        = -(1e-8) / (list_std L + 1e-8) := by
      field_simp
    rw [hexpr, abs_div, abs_neg, abs_of_pos (by norm_num : (0:ℝ) < 1e-8),
      abs_of_pos hdpos, div_mul_cancel₀ _ (ne_of_gt hdpos)]
  · rw [hstd]
    rw [div_lt_one hdpos]
    linarith

/-- C7 witness: a three-entry buffer with distinct pre-normalization returns. -/
theorem compute_returns_stats_witness :
    2 ≤ (compute_returns_raw 0 [1, 2, 3] [false, false, false]).length ∧
    list_varianceQ (compute_returns_raw 0 [1, 2, 3] [false, false, false]) ≠ 0 ∧
    list_mean (compute_returns 0 [1, 2, 3] [false, false, false]) = 0 := by
  have hlen : 2 ≤ (compute_returns_raw 0 [1, 2, 3] [false, false, false]).length := by
    norm_num [compute_returns_raw]
  have hvar : list_varianceQ (compute_returns_raw 0 [1, 2, 3] [false, false, false])
      ≠ 0 := by
    norm_num [compute_returns_raw, list_varianceQ]
  exact ⟨hlen, hvar,
    (compute_returns_normalized_stats 0 [1, 2, 3] [false, false, false]
      hlen hvar).1⟩

/-- Training buffer of `PPOTrainer`: six parallel sequences. -/
structure PPOBuffer where
  observations : List (List ℚ)
  actions : List (List ℚ)
  rewards : List ℚ
  values : List ℚ
  log_probs : List ℚ
  dones : List Bool
deriving DecidableEq, Repr

/-- The empty buffer, as produced by `clear_buffer` (it clears every one of
the six sequences). -/
def PPOBuffer.empty : PPOBuffer := ⟨[], [], [], [], [], []⟩

/-- Embedding of `PPOTrainer.store_transition`: append to all six sequences. -/
def PPOBuffer.store_transition (b : PPOBuffer) (observation action : List ℚ)
    (reward value log_prob : ℚ) (done : Bool) : PPOBuffer where
  observations := b.observations ++ [observation]
  actions := b.actions ++ [action]
  rewards := b.rewards ++ [reward]
  values := b.values ++ [value]
  log_probs := b.log_probs ++ [log_prob]
  dones := b.dones ++ [done]

/-- Trainer state relevant to `update`'s observable bookkeeping: the buffer,
the training-step counter, and the network-plus-optimizer parameters,
abstracted as a type parameter `P` (torch floating-point state is outside the
embedding). -/
structure PPOTrainer (P : Type) where
  params : P
  gamma : ℚ
  buffer : PPOBuffer
  training_steps : ℕ

/-- Embedding of `PPOTrainer.update`.  The four optimization passes over the
whole buffer are abstracted as `opt`, which returns the (possibly partially)
updated parameters together with, on success, the final loss, policy loss,
value loss and mean normalized return for the metrics dict; `none` models an
exception raised inside the optimization loop, which in the source propagates
before `training_steps += 1` and before `clear_buffer()`.  When the buffer
holds fewer than 10 transitions the source returns `{"loss": 0.0}` without
touching anything. -/
def PPOTrainer.update {P : Type}
    (opt : P → PPOBuffer → P × Option (ℚ × ℚ × ℚ × ℚ))
    (t : PPOTrainer P) : PPOTrainer P × Except String (List (String × ℚ)) :=
  if t.buffer.observations.length < 10 then
    (t, .ok [("loss", 0)])
  else
    match opt t.params t.buffer with
    | (p2, none) =>
      ({ t with params := p2 }, .error "optimization step raised")
    | (p2, some (l, pl, vl, mr)) =>
      ({ t with params := p2,
                training_steps := t.training_steps + 1,
                buffer := PPOBuffer.empty },
       .ok [("loss", l), ("policy_loss", pl), ("value_loss", vl),
            ("mean_return", mr)])

/-- C4: `update` is atomic with respect to its observable bookkeeping: with
fewer than 10 stored transitions it changes nothing at all (parameters, step
counter, buffer) and returns the zero-valued metrics dict; when the
optimization succeeds, all six parallel buffer sequences are left empty and
the training-step counter grows by exactly 1; and when the optimization
raises, the buffer is left intact and the counter does not advance. -/
theorem update_bookkeeping {P : Type}
    (opt : P → PPOBuffer → P × Option (ℚ × ℚ × ℚ × ℚ)) (t : PPOTrainer P) :
    (t.buffer.observations.length < 10 →
      PPOTrainer.update opt t = (t, .ok [("loss", 0)])) ∧
    (∀ p2 l pl vl mr, ¬ t.buffer.observations.length < 10 →
      opt t.params t.buffer = (p2, some (l, pl, vl, mr)) →
      (PPOTrainer.update opt t).1.buffer.observations = [] ∧
      (PPOTrainer.update opt t).1.buffer.actions = [] ∧
      (PPOTrainer.update opt t).1.buffer.rewards = [] ∧
      (PPOTrainer.update opt t).1.buffer.values = [] ∧
      (PPOTrainer.update opt t).1.buffer.log_probs = [] ∧
      (PPOTrainer.update opt t).1.buffer.dones = [] ∧
      (PPOTrainer.update opt t).1.training_steps = t.training_steps + 1) ∧
    (∀ p2, ¬ t.buffer.observations.length < 10 →
      opt t.params t.buffer = (p2, none) →
      (PPOTrainer.update opt t).1.buffer = t.buffer ∧
      (PPOTrainer.update opt t).1.training_steps = t.training_steps ∧
      (PPOTrainer.update opt t).2 = .error "optimization step raised") := by
  refine ⟨fun hshort => by simp [PPOTrainer.update, hshort], ?_, ?_⟩
  · intro p2 l pl vl mr hlong hopt
    simp [PPOTrainer.update, hlong, hopt, PPOBuffer.empty]
  · intro p2 hlong hopt
    simp [PPOTrainer.update, hlong, hopt]

/-- Concrete buffer holding ten stored transitions. -/
def full_buffer : PPOBuffer where
  observations := List.replicate 10 []
  actions := List.replicate 10 []
  rewards := List.replicate 10 0
  values := List.replicate 10 0
  log_probs := List.replicate 10 0
  dones := List.replicate 10 false

/-- C4 witness: a successful optimization on a ten-transition buffer clears
every sequence and advances the counter from 7 to 8. -/
theorem update_bookkeeping_witness :
    (¬ (⟨(), 0.99, full_buffer, 7⟩ : PPOTrainer Unit).buffer.observations.length
        < 10) ∧
    ((fun (p : Unit) (_ : PPOBuffer) => (p, some ((1 : ℚ), 2, 3, 4)))
        (⟨(), 0.99, full_buffer, 7⟩ : PPOTrainer Unit).params
        (⟨(), 0.99, full_buffer, 7⟩ : PPOTrainer Unit).buffer
      = ((), some ((1 : ℚ), 2, 3, 4))) ∧
    (PPOTrainer.update (fun (p : Unit) (_ : PPOBuffer) => (p, some ((1 : ℚ), 2, 3, 4)))
        (⟨(), 0.99, full_buffer, 7⟩ : PPOTrainer Unit)).1.buffer.observations = [] ∧
    (PPOTrainer.update (fun (p : Unit) (_ : PPOBuffer) => (p, some ((1 : ℚ), 2, 3, 4)))
        (⟨(), 0.99, full_buffer, 7⟩ : PPOTrainer Unit)).1.buffer.dones = [] ∧
    (PPOTrainer.update (fun (p : Unit) (_ : PPOBuffer) => (p, some ((1 : ℚ), 2, 3, 4)))
        (⟨(), 0.99, full_buffer, 7⟩ : PPOTrainer Unit)).1.training_steps = 8 := by
  have hlong : ¬ (⟨(), 0.99, full_buffer, 7⟩ :
      PPOTrainer Unit).buffer.observations.length < 10 := by
    decide
  have h := (update_bookkeeping
    (fun (p : Unit) (_ : PPOBuffer) => (p, some ((1 : ℚ), 2, 3, 4)))
    (⟨(), 0.99, full_buffer, 7⟩ : PPOTrainer Unit)).2.1 () 1 2 3 4 hlong rfl
  exact ⟨hlong, rfl, h.1, h.2.2.2.2.2.1, h.2.2.2.2.2.2⟩

/-- One recorded frame (`EpisodeFrame` in `episode_logger.py`); the per-agent
snapshot, world snapshot and event payloads are abstract type parameters.
The `events` argument defaults to the empty list when absent
(`events or []`). -/
structure EpisodeFrame (A W E : Type) where
  timestamp : ℚ
  agents_state : List A
  world_state : W
  events : List E

/-- An episode (`Episode` in `episode_logger.py`): identity, metadata,
ordered frames, start timestamp, and an end timestamp present exactly when
finalized. -/
structure Episode (A W E : Type) where
  episode_id : String
  metadata : List (String × String)
  frames : List (EpisodeFrame A W E)
  start_time : ℚ
  end_time : Option ℚ

/-- Recorder state (`EpisodeLogger`): the single current-episode slot plus
the persisted documents keyed by episode id (the storage directory). -/
structure EpisodeLogger (A W E : Type) where
  current_episode : Option (Episode A W E)
  storage : List (String × Episode A W E)

/-- Embedding of `EpisodeLogger.start_episode`: fill the slot with a fresh
episode (discarding any unfinalized one) and return its id.  The id and the
wall-clock start time are supplied by the environment. -/
def EpisodeLogger.start_episode {A W E : Type} (lg : EpisodeLogger A W E)
    (episode_id : String) (metadata : List (String × String)) (now : ℚ) :
    EpisodeLogger A W E × String :=
  ({ lg with current_episode := some ⟨episode_id, metadata, [], now, none⟩ },
   episode_id)

/-- Embedding of `EpisodeLogger.log_frame`: in Idle it raises
`ValueError("No active episode. Call start_episode first.")`; otherwise it
appends the frame to the current episode. -/
def EpisodeLogger.log_frame {A W E : Type} (lg : EpisodeLogger A W E)
    (timestamp : ℚ) (agents_state : List A) (world_state : W)
    (events : Option (List E)) : EpisodeLogger A W E × Except String Unit :=
  match lg.current_episode with
  | none => (lg, .error "No active episode. Call start_episode first.")
  | some ep =>
    let frame : EpisodeFrame A W E :=
      ⟨timestamp, agents_state, world_state, events.getD []⟩
    ({ lg with current_episode := some { ep with frames := ep.frames ++ [frame] } },
     .ok ())

/-- Lightweight summary returned by `end_episode`: id, metadata, timestamps,
frame count and duration — no frame payloads. -/
structure EpisodeSummary where
  episode_id : String
  metadata : List (String × String)
  start_time : ℚ
  end_time : Option ℚ
  num_frames : ℕ
  duration : ℚ

/-- Embedding of `EpisodeLogger.end_episode`: in Idle it raises
`ValueError("No active episode to end.")`; otherwise it stamps the end time,
persists the finalized episode wholesale under its id (overwriting any
previous document with that id), empties the slot and returns the summary. -/
def EpisodeLogger.end_episode {A W E : Type} (lg : EpisodeLogger A W E)
    (now : ℚ) : EpisodeLogger A W E × Except String EpisodeSummary :=
  match lg.current_episode with
  | none => (lg, .error "No active episode to end.")
  | some ep =>
    let ep := { ep with end_time := some now }
    ({ current_episode := none,
       storage := (lg.storage.filter (fun kv => kv.1 ≠ ep.episode_id))
         ++ [(ep.episode_id, ep)] },
     .ok ⟨ep.episode_id, ep.metadata, ep.start_time, some now,
          ep.frames.length, now - ep.start_time⟩)

/-- C8: in the Idle state (no active episode), `log_frame` and `end_episode`
both fail with the surfaced "no active episode" errors of the source, and
neither changes the recorder state — the failure is returned to the caller,
never silently recovered. -/
theorem idle_log_frame_end_episode_fail {A W E : Type}
    (lg : EpisodeLogger A W E) (timestamp : ℚ) (agents_state : List A)
    (world_state : W) (events : Option (List E)) (now : ℚ)
    (h : lg.current_episode = none) :
    lg.log_frame timestamp agents_state world_state events
      = (lg, .error "No active episode. Call start_episode first.") ∧
    lg.end_episode now = (lg, .error "No active episode to end.") := by
  constructor
  · unfold EpisodeLogger.log_frame
    rw [h]
  · unfold EpisodeLogger.end_episode
    rw [h]

/-- C8 witness: a freshly constructed recorder rejects both calls and is left
unchanged. -/
theorem idle_fail_witness :
    ((⟨none, []⟩ : EpisodeLogger Unit Unit Unit).current_episode = none) ∧
    (⟨none, []⟩ : EpisodeLogger Unit Unit Unit).log_frame 0 [] () none
      = (⟨none, []⟩, .error "No active episode. Call start_episode first.") ∧
    (⟨none, []⟩ : EpisodeLogger Unit Unit Unit).end_episode 1
      = (⟨none, []⟩, .error "No active episode to end.") :=
  ⟨rfl,
   (idle_log_frame_end_episode_fail ⟨none, []⟩ 0 [] () none 1 rfl).1,
   (idle_log_frame_end_episode_fail ⟨none, []⟩ 0 [] () none 1 rfl).2⟩
